import Mathlib

/-!
Verification of the RU course-enrollment reporter
(src/cs_course_enrollment.py).

The script scrapes course records from a web page and then runs a pure
reporting pipeline over them: a pair parser for "current / limit" strings,
a flagging filter, an aligned text table, and a CSV export.  This file
gives a shallow embedding of that pipeline and proves the specification's
claims about it.  Machine strings are Lean String values; Python ints are
Lean Int; code that can raise is modelled with Option or an explicit
success flag.
-/

namespace CourseEnrollment

/-- CourseInfo: the record scraped per course (title, class code, and the
raw "current / limit" strings for enrollment and wait list), mirroring the
Python dataclass of the same name. -/
structure CourseInfo where
  title : String
  class_code : String
  enrolled : String
  wait_list : String
deriving DecidableEq, Repr

/-- Python str.split with a one-character separator, at the character-list
level: splitting the empty text yields one empty part, and each occurrence
of the separator opens a new part. -/
def splitChar (sep : Char) : List Char → List (List Char)
  | [] => [[]]
  | c :: rest =>
    if c = sep then [] :: splitChar sep rest
    else
      match splitChar sep rest with
      | [] => [[c]]
      | h :: t => (c :: h) :: t

/-- Digits of a Python int literal: nonempty and all ASCII decimal digits,
folded to their value.  (Python's int() also accepts underscores and
non-ASCII digits; the strings this program parses are ASCII decimal, which
is what we model.) -/
def parseDigits (cs : List Char) : Option Nat :=
  if cs.isEmpty then none
  else if cs.all (fun c => c.isDigit) then
    some (cs.foldl (fun n c => 10 * n + (c.toNat - 48)) 0)
  else none

/-- Python str.strip(): drop whitespace from both ends, at the
character-list level. -/
def stripChars (cs : List Char) : List Char :=
  ((cs.dropWhile Char.isWhitespace).reverse.dropWhile Char.isWhitespace).reverse

/-- Python int() on an already-stripped string: an optional sign followed
by decimal digits, or a failure. -/
def parseInt (cs : List Char) : Option Int :=
  match cs with
  | '-' :: rest => (parseDigits rest).map (fun n => -(n : Int))
  | '+' :: rest => (parseDigits rest).map (fun n => (n : Int))
  | other => (parseDigits other).map (fun n => (n : Int))

/-- The nested _parse_pair helper of print_courses: split the string on
"/", require exactly two parts (the tuple unpacking), strip and int() each
part; any failure in that body yields the pair (0, 0). -/
def parsePair (pair : String) : Int × Int :=
  match splitChar '/' pair.toList with
  | [a, b] =>
    match parseInt (stripChars a), parseInt (stripChars b) with
    | some x, some y => (x, y)
    | _, _ => (0, 0)
  | _ => (0, 0)

/-- The flagging condition of print_courses: current enrollment at most 10,
or at least one student on the wait list. -/
def isFlagged (c : CourseInfo) : Bool :=
  decide ((parsePair c.enrolled).1 ≤ 10) || decide (0 < (parsePair c.wait_list).1)

/-- The accumulator loop of print_courses that builds the flagged list by
appending each record whose condition holds. -/
def flaggedLoop (courses : List CourseInfo) (acc : List CourseInfo) : List CourseInfo :=
  match courses with
  | [] => acc
  | c :: rest =>
    if isFlagged c then flaggedLoop rest (acc ++ [c])
    else flaggedLoop rest acc

/-- The flagged sublist print_courses derives from the record sequence. -/
def flaggedList (courses : List CourseInfo) : List CourseInfo :=
  flaggedLoop courses []

/-- Largest display length of one field over the records (the inner
Python max over a generator, with 0 for the empty sequence the code never
reaches). -/
def maxFieldLen (f : CourseInfo → String) (courses : List CourseInfo) : Nat :=
  (courses.map (fun c => (f c).length)).foldr max 0

/-- Width of the Title column: the header label against every title. -/
def titleWidth (courses : List CourseInfo) : Nat :=
  max "Title".length (maxFieldLen (fun c => c.title) courses)

/-- Width of the Class column. -/
def classWidth (courses : List CourseInfo) : Nat :=
  max "Class".length (maxFieldLen (fun c => c.class_code) courses)

/-- Width of the Enrolled column. -/
def enrolledWidth (courses : List CourseInfo) : Nat :=
  max "Enrolled".length (maxFieldLen (fun c => c.enrolled) courses)

/-- Width of the Wait List column. -/
def waitWidth (courses : List CourseInfo) : Nat :=
  max "Wait List".length (maxFieldLen (fun c => c.wait_list) courses)

/-- Python left-aligned field formatting to a minimum width: pad with
spaces on the right, never truncate. -/
def padTo (s : String) (w : Nat) : String :=
  s ++ String.mk (List.replicate (w - s.length) ' ')

/-- One table row of print_courses: the four fields left-aligned to the
widths of the record list whose table is being printed, two spaces between
columns, no separator after the last column. -/
def formatRow (courses : List CourseInfo) (c : CourseInfo) : String :=
  padTo c.title (titleWidth courses) ++ "  " ++
  padTo c.class_code (classWidth courses) ++ "  " ++
  padTo c.enrolled (enrolledWidth courses) ++ "  " ++
  padTo c.wait_list (waitWidth courses)

/-- The header row, built like a data row from the four column labels. -/
def headerRow (courses : List CourseInfo) : String :=
  padTo "Title" (titleWidth courses) ++ "  " ++
  padTo "Class" (classWidth courses) ++ "  " ++
  padTo "Enrolled" (enrolledWidth courses) ++ "  " ++
  padTo "Wait List" (waitWidth courses)

/-- The separator rule: one dash per character of the header row. -/
def sepRow (courses : List CourseInfo) : String :=
  String.mk (List.replicate (headerRow courses).length '-')

/-- The notice printed when the record sequence is empty. -/
def noCoursesMsg : String :=
  "No courses were found.  Verify the term code and try again."

/-- The label above the flagged sub-table. -/
def flaggedNotice : String :=
  "Courses of interest (≤ 10 enrolled or students on the wait list):"

/-- The flagged sub-table of print_courses: nothing when no record is
flagged, otherwise a blank line, the notice, a header and rule, and one
row per flagged record — all formatted with the widths of the full record
list, which print_courses computed once at the top. -/
def flaggedSection (courses : List CourseInfo) : List String :=
  if flaggedList courses = [] then []
  else
    "" :: flaggedNotice :: headerRow courses :: sepRow courses ::
      (flaggedList courses).map (formatRow courses)

/-- Every line print_courses writes to standard output, in order. -/
def printCoursesLines (courses : List CourseInfo) : List String :=
  if courses = [] then [noCoursesMsg]
  else
    headerRow courses :: sepRow courses :: courses.map (formatRow courses)
      ++ flaggedSection courses

/-- The CSV writer's minimal-quoting test: a field is quoted exactly when
it contains the delimiter, the quote character, or a line break. -/
def csvNeedsQuote (s : String) : Bool :=
  s.toList.any (fun c => c = ',' || c = '"' || c = '\n' || c = '\r')

/-- Double every quote character, the CSV escaping rule. -/
def escapeQuotes : List Char → List Char
  | [] => []
  | c :: rest =>
    if c = '"' then '"' :: '"' :: escapeQuotes rest
    else c :: escapeQuotes rest

/-- One CSV field as csv.writer renders it with minimal quoting. -/
def csvEscape (s : String) : String :=
  if csvNeedsQuote s then (('"' :: escapeQuotes s.toList) ++ ['"']).asString
  else s

/-- Join parts with a separator character between consecutive parts. -/
def joinChar (sep : Char) : List (List Char) → List Char
  | [] => []
  | [p] => p
  | p :: q :: rest => p ++ sep :: joinChar sep (q :: rest)

/-- One CSV row: the escaped fields joined by commas. -/
def csvRow (fields : List String) : String :=
  (joinChar ',' (fields.map (fun f => (csvEscape f).toList))).asString

/-- The header fields save_csv writes first. -/
def csvHeaderFields : List String :=
  ["Title", "Class", "Enrolled", "Wait List"]

/-- The four fields of one record in CSV column order. -/
def courseCsvFields (c : CourseInfo) : List String :=
  [c.title, c.class_code, c.enrolled, c.wait_list]

/-- The rows save_csv writes: the header row, then one row per record in
encounter order. -/
def saveCsvLines (courses : List CourseInfo) : List String :=
  csvRow csvHeaderFields :: courses.map (fun c => csvRow (courseCsvFields c))

/-- The count report save_csv prints after writing the file. -/
def saveCsvMessage (courses : List CourseInfo) (path : String) : String :=
  "Saved " ++ toString courses.length ++ " courses to " ++ path

/-- Modelled from the spec: the read-back step of the CSV round-trip
property.  The repository has no CSV reader, so one line of the exported
file is read by splitting on the comma delimiter (exact for fields that
contain no delimiter or quote characters). -/
def readCsvLine (line : String) : List String :=
  (splitChar ',' line.toList).map List.asString

/-- Modelled from the spec: reading the whole exported file back, one
field list per line. -/
def readCsvLines (lines : List String) : List (List String) :=
  lines.map readCsvLine

/-- Python str.strip() on a whole string value. -/
def stripString (s : String) : String :=
  (stripChars s.toList).asString

/-- One rendered result container as the extractor sees it: each of the
four sub-field reads either yields text or raises (none). -/
structure ResultBox where
  courseName : Option String
  classValue : Option String
  enrollValue : Option String
  waitValue : Option String

/-- The body of the extractor's per-container try block: a record is built
only when all four sub-field reads succeed; the first failing read aborts
the container. -/
def extractBox (b : ResultBox) : Option CourseInfo :=
  match b.courseName, b.classValue, b.enrollValue, b.waitValue with
  | some t, some cc, some e, some w =>
    some ⟨stripString t, stripString cc, stripString e, stripString w⟩
  | _, _, _, _ => none

/-- The extractor's for loop over the result containers: append the record
of a container whose reads all succeed, skip a failing container and
continue with the rest. -/
def collectLoop (boxes : List ResultBox) (acc : List CourseInfo) : List CourseInfo :=
  match boxes with
  | [] => acc
  | b :: rest =>
    match extractBox b with
    | some c => collectLoop rest (acc ++ [c])
    | none => collectLoop rest acc

/-- The record sequence collect_courses extracts from the containers. -/
def collectFromBoxes (boxes : List ResultBox) : List CourseInfo :=
  collectLoop boxes []

/-- The observable actions of collect_courses on the browser session, in
the order its body attempts them, plus the teardown call. -/
inductive SessionEvent where
  | navigate
  | waitSubjects
  | deselectAll
  | selectCST
  | clickFind
  | waitResults
  | scrollPage
  | readBoxes
  | quit
deriving DecidableEq, Repr

/-- How one run of collect_courses can go: whether get_driver succeeds,
which pipeline step (if any) raises — a wait that times out, a missing
control — and what the result containers hold. -/
structure SessionEnv where
  driverOk : Bool
  navigateOk : Bool
  subjectsAppear : Bool
  deselectOk : Bool
  selectOk : Bool
  findButtonOk : Bool
  resultsAppear : Bool
  boxes : List ResultBox

/-- The steps of the try block of collect_courses, each paired with
whether it succeeds in the given run (reading the containers never raises:
its per-container failures are handled inside the loop). -/
def sessionSteps (env : SessionEnv) : List (SessionEvent × Bool) :=
  [(SessionEvent.navigate, env.navigateOk),
   (SessionEvent.waitSubjects, env.subjectsAppear),
   (SessionEvent.deselectAll, env.deselectOk),
   (SessionEvent.selectCST, env.selectOk),
   (SessionEvent.clickFind, env.findButtonOk),
   (SessionEvent.waitResults, env.resultsAppear),
   (SessionEvent.scrollPage, true),
   (SessionEvent.readBoxes, true)]

/-- Run steps in order: each attempted step is recorded, and the first
failing step aborts the rest (an uncaught exception leaving the try
block).  The flag says whether the body completed. -/
def runSteps : List (SessionEvent × Bool) → List SessionEvent × Bool
  | [] => ([], true)
  | (e, ok) :: rest =>
    if ok then
      let r := runSteps rest
      (e :: r.1, r.2)
    else ([e], false)

/-- The session events of one run of collect_courses.  When get_driver
itself fails no session exists and nothing happens to one; once it
succeeds the body runs inside try/finally, so driver.quit() is appended to
every trace, on the completing path and on every raising path alike. -/
def collectCoursesTrace (env : SessionEnv) : List SessionEvent :=
  if env.driverOk then (runSteps (sessionSteps env)).1 ++ [SessionEvent.quit]
  else []

/-- The value collect_courses produces in the same run: the extracted
records when the body completed, none when a step raised (the exception
propagates after the finally block). -/
def collectCoursesResult (env : SessionEnv) : Option (List CourseInfo) :=
  if env.driverOk ∧ (runSteps (sessionSteps env)).2 then
    some (collectFromBoxes env.boxes)
  else none

/-- A field value that needs no CSV quoting: it contains no delimiter,
quote character or line break. -/
def cleanCsvField (s : String) : Prop :=
  ∀ c ∈ s.toList, c ≠ ',' ∧ c ≠ '"' ∧ c ≠ '\n' ∧ c ≠ '\r'

instance (s : String) : Decidable (cleanCsvField s) := by
  unfold cleanCsvField
  infer_instance

/-! ## Helper lemmas -/

theorem splitChar_ne_nil (sep : Char) (l : List Char) : splitChar sep l ≠ [] := by
  cases l with
  | nil => simp [splitChar]
  | cons c rest =>
    by_cases hc : c = sep
    · simp [splitChar, hc]
    · simp only [splitChar, if_neg hc]
      cases splitChar sep rest <;> simp

theorem splitChar_single (sep : Char) :
    ∀ l : List Char, sep ∉ l → splitChar sep l = [l]
  | [], _ => rfl
  | c :: rest, h => by
    have hc : ¬ c = sep := fun e => h (e ▸ List.mem_cons_self c rest)
    have ih := splitChar_single sep rest (fun m => h (List.mem_cons_of_mem c m))
    simp [splitChar, hc, ih]

theorem splitChar_sep_append (sep : Char) :
    ∀ (p l : List Char), sep ∉ p →
      splitChar sep (p ++ sep :: l) = p :: splitChar sep l
  | [], l, _ => by simp [splitChar]
  | c :: p, l, h => by
    have hc : ¬ c = sep := fun e => h (e ▸ List.mem_cons_self c p)
    have ih := splitChar_sep_append sep p l (fun m => h (List.mem_cons_of_mem c m))
    simp [splitChar, hc, ih]

theorem splitChar_joinChar (sep : Char) :
    ∀ parts : List (List Char), parts ≠ [] → (∀ p ∈ parts, sep ∉ p) →
      splitChar sep (joinChar sep parts) = parts
  | [], h, _ => absurd rfl h
  | [p], _, h => by
    simp [joinChar, splitChar_single sep p (h p (List.mem_singleton.mpr rfl))]
  | p :: q :: rest, _, h => by
    have ih := splitChar_joinChar sep (q :: rest) (by simp)
      (fun r hr => h r (List.mem_cons_of_mem p hr))
    rw [joinChar, splitChar_sep_append sep p _ (h p (List.mem_cons_self p _)), ih]

theorem toList_asString (l : List Char) : l.asString.toList = l := rfl

theorem asString_toList (s : String) : s.toList.asString = s := rfl

theorem flaggedLoop_eq_filter :
    ∀ (cs acc : List CourseInfo), flaggedLoop cs acc = acc ++ cs.filter isFlagged
  | [], acc => by simp [flaggedLoop]
  | c :: rest, acc => by
    by_cases hc : isFlagged c
    · simp [flaggedLoop, hc, flaggedLoop_eq_filter rest (acc ++ [c]), List.filter_cons]
    · simp [flaggedLoop, hc, flaggedLoop_eq_filter rest acc, List.filter_cons]

theorem flaggedList_eq_filter (cs : List CourseInfo) :
    flaggedList cs = cs.filter isFlagged := by
  simp [flaggedList, flaggedLoop_eq_filter]

theorem collectLoop_eq_filterMap :
    ∀ (boxes : List ResultBox) (acc : List CourseInfo),
      collectLoop boxes acc = acc ++ boxes.filterMap extractBox
  | [], acc => by simp [collectLoop]
  | b :: rest, acc => by
    cases hb : extractBox b with
    | none => simp [collectLoop, hb, collectLoop_eq_filterMap rest acc]
    | some c => simp [collectLoop, hb, collectLoop_eq_filterMap rest (acc ++ [c])]

theorem collectFromBoxes_eq_filterMap (boxes : List ResultBox) :
    collectFromBoxes boxes = boxes.filterMap extractBox := by
  simp [collectFromBoxes, collectLoop_eq_filterMap]

theorem mem_le_foldr_max :
    ∀ (l : List Nat), ∀ x ∈ l, x ≤ l.foldr max 0
  | a :: l, x, hx => by
    rcases List.mem_cons.mp hx with rfl | hm
    · exact Nat.le_max_left _ _
    · exact Nat.le_trans (mem_le_foldr_max l x hm) (Nat.le_max_right _ _)

theorem foldr_max_mem_zero_cons :
    ∀ l : List Nat, l.foldr max 0 ∈ 0 :: l
  | [] => List.mem_singleton.mpr rfl
  | a :: l => by
    have ih := foldr_max_mem_zero_cons l
    show max a (l.foldr max 0) ∈ 0 :: a :: l
    rcases Nat.le_total (l.foldr max 0) a with h | h
    · rw [Nat.max_eq_left h]
      exact List.mem_cons_of_mem 0 (List.mem_cons_self a l)
    · rw [Nat.max_eq_right h]
      rcases List.mem_cons.mp ih with h0 | hm
      · rw [h0]
        exact List.mem_cons_self 0 (a :: l)
      · exact List.mem_cons_of_mem 0 (List.mem_cons_of_mem a hm)

theorem maxFieldLen_le (f : CourseInfo → String) (cs : List CourseInfo)
    (c : CourseInfo) (h : c ∈ cs) : (f c).length ≤ maxFieldLen f cs :=
  mem_le_foldr_max _ _ (List.mem_map_of_mem (fun c => (f c).length) h)

theorem maxFieldLen_attained (f : CourseInfo → String) (cs : List CourseInfo) :
    maxFieldLen f cs = 0 ∨ ∃ c ∈ cs, maxFieldLen f cs = (f c).length := by
  rcases List.mem_cons.mp (foldr_max_mem_zero_cons (cs.map fun c => (f c).length)) with h0 | hm
  · exact Or.inl h0
  · rcases List.mem_map.mp hm with ⟨c, hc, he⟩
    exact Or.inr ⟨c, hc, he.symm⟩

theorem width_attained (label : String) (f : CourseInfo → String)
    (cs : List CourseInfo) :
    max label.length (maxFieldLen f cs) = label.length
      ∨ ∃ c ∈ cs, max label.length (maxFieldLen f cs) = (f c).length := by
  rcases Nat.le_total (maxFieldLen f cs) label.length with h | h
  · exact Or.inl (Nat.max_eq_left h)
  · rw [Nat.max_eq_right h]
    rcases maxFieldLen_attained f cs with h0 | ⟨c, hc, he⟩
    · left
      rw [h0] at h ⊢
      exact (Nat.le_zero.mp h).symm
    · exact Or.inr ⟨c, hc, he⟩

theorem csvEscape_clean (s : String) (h : cleanCsvField s) : csvEscape s = s := by
  have hq : csvNeedsQuote s = false := by
    simp only [csvNeedsQuote, List.any_eq_false]
    intro c hc
    rcases h c hc with ⟨h1, h2, h3, h4⟩
    simp [h1, h2, h3, h4]
  simp [csvEscape, hq]

theorem readCsvLine_csvRow (fields : List String) (h0 : fields ≠ [])
    (h : ∀ f ∈ fields, cleanCsvField f) :
    readCsvLine (csvRow fields) = fields := by
  have hesc : fields.map (fun f => (csvEscape f).toList) = fields.map String.toList := by
    apply List.map_congr_left
    intro f hf
    rw [csvEscape_clean f (h f hf)]
  have hclean : ∀ p ∈ fields.map String.toList, ',' ∉ p := by
    intro p hp
    rcases List.mem_map.mp hp with ⟨f, hf, rfl⟩
    intro hcomma
    exact ((h f hf ',' hcomma).1) rfl
  have hne : fields.map String.toList ≠ [] := by
    intro he
    exact h0 (List.map_eq_nil_iff.mp he)
  calc readCsvLine (csvRow fields)
      = (splitChar ',' (joinChar ',' (fields.map String.toList))).map List.asString := by
        rw [csvRow, hesc, readCsvLine, toList_asString]
    _ = (fields.map String.toList).map List.asString := by
        rw [splitChar_joinChar ',' _ hne hclean]
    _ = fields := by
        rw [List.map_map]
        have hid : ∀ f ∈ fields, (List.asString ∘ String.toList) f = id f :=
          fun f _ => asString_toList f
        rw [List.map_congr_left hid, List.map_id]

/-! ## Concrete records -/

/-- First record of the specification's two-record scenario. -/
def demoIntro : CourseInfo :=
  ⟨"Intro to CS", "CST 150-01", "9 / 25", "0 / 0"⟩

/-- Second record of the specification's two-record scenario. -/
def demoData : CourseInfo :=
  ⟨"Data Structures", "CST 250-01", "25 / 25", "3 / 5"⟩

/-- The specification's two-record scenario input. -/
def demoRecords : List CourseInfo := [demoIntro, demoData]

/-- A record whose enrolled and wait-list strings both fail numeric
parsing. -/
def unparseableCourse : CourseInfo :=
  ⟨"Special Topics", "CST 390-01", "bad", "bad"⟩

/-- A run in which the session starts and every step up to the wait for
result containers succeeds, and that wait then times out. -/
def timeoutEnv : SessionEnv :=
  ⟨true, true, true, true, true, true, false, []⟩

/-! ## Statement bundles used by a claim and its witness -/

/-- The tabulation property of print_courses over one record list: every
column width bounds its column's values, every column width is the header
label's length or attained by some record of the full list, and every
flagged record's sub-table row is printed formatted with the full list's
widths. -/
def widthTableSpec (courses : List CourseInfo) : Prop :=
  (∀ c ∈ courses,
      c.title.length ≤ titleWidth courses
      ∧ c.class_code.length ≤ classWidth courses
      ∧ c.enrolled.length ≤ enrolledWidth courses
      ∧ c.wait_list.length ≤ waitWidth courses)
  ∧ (titleWidth courses = "Title".length
      ∨ ∃ c ∈ courses, titleWidth courses = c.title.length)
  ∧ (classWidth courses = "Class".length
      ∨ ∃ c ∈ courses, classWidth courses = c.class_code.length)
  ∧ (enrolledWidth courses = "Enrolled".length
      ∨ ∃ c ∈ courses, enrolledWidth courses = c.enrolled.length)
  ∧ (waitWidth courses = "Wait List".length
      ∨ ∃ c ∈ courses, waitWidth courses = c.wait_list.length)
  ∧ (∀ c ∈ flaggedList courses, formatRow courses c ∈ printCoursesLines courses)

/-- The CSV export property over one record list: one header row plus one
data row per record, reading the file back recovers the header fields and
every record's four field values in encounter order, and the export
message reports the record count. -/
def csvRoundTripSpec (courses : List CourseInfo) : Prop :=
  (saveCsvLines courses).length = courses.length + 1
  ∧ readCsvLines (saveCsvLines courses)
      = csvHeaderFields :: courses.map courseCsvFields
  ∧ ∀ path : String,
      saveCsvMessage courses path
        = "Saved " ++ toString courses.length ++ " courses to " ++ path

/-- The release property of one collect_courses run: the teardown call is
in the run's trace, and it is the run's last session action. -/
def sessionReleaseSpec (env : SessionEnv) : Prop :=
  SessionEvent.quit ∈ collectCoursesTrace env
  ∧ (collectCoursesTrace env).getLast? = some SessionEvent.quit

/-! ## Claim theorems -/

theorem isFlagged_iff (c : CourseInfo) :
    isFlagged c = true
      ↔ ((parsePair c.enrolled).1 ≤ 10 ∨ 0 < (parsePair c.wait_list).1) := by
  simp [isFlagged]

/-- C1: a record is flagged if and only if the parsed current enrollment
is at most 10 or the parsed current wait-list count is positive, where
the pair parser splits "a / b" into (int a, int b), tolerates whitespace
around the separator, and yields (0, 0) on any parse failure; in
particular parse "9 / 25" = (9, 25), parse "bad" = (0, 0) and
parse "0/46" = (0, 46). -/
theorem flagging_predicate_iff :
    (∀ (courses : List CourseInfo) (c : CourseInfo),
        c ∈ flaggedList courses
          ↔ c ∈ courses
            ∧ ((parsePair c.enrolled).1 ≤ 10 ∨ 0 < (parsePair c.wait_list).1))
    ∧ parsePair "9 / 25" = (9, 25)
    ∧ parsePair "bad" = (0, 0)
    ∧ parsePair "0/46" = (0, 46) := by
  refine ⟨fun courses c => ?_, by decide, by decide, by decide⟩
  rw [flaggedList_eq_filter, List.mem_filter, isFlagged_iff]

/-- C2: the code's behavior at a record whose enrolled and wait-list
strings both fail numeric parsing.  Both pairs default to (0, 0), the
record is printed in the main table — and, contrary to the claim and to
the code's own comment, it IS placed in the flagged subset, because the
defaulted current enrollment 0 satisfies the low-enrollment clause. -/
theorem unparseable_record_flagged :
    parsePair unparseableCourse.enrolled = (0, 0)
    ∧ parsePair unparseableCourse.wait_list = (0, 0)
    ∧ formatRow [unparseableCourse] unparseableCourse
        ∈ printCoursesLines [unparseableCourse]
    ∧ flaggedList [unparseableCourse] = [unparseableCourse] := by
  refine ⟨by decide, by decide, ?_, by decide⟩
  have h : flaggedList [unparseableCourse] = [unparseableCourse] := by decide
  rw [printCoursesLines, if_neg (by decide : ¬([unparseableCourse] = [])),
    flaggedSection, if_neg (by rw [h]; decide)]
  rw [h]
  simp [List.mem_cons]

/-- C3, counterexample: on the specification's two-record scenario the
flagged subset is not exactly the first record — the second record is
flagged as well, since its wait-list string "3 / 5" parses to a positive
current count. -/
theorem scenario_not_only_first :
    flaggedList demoRecords ≠ [demoIntro]
    ∧ demoData ∈ flaggedList demoRecords := by
  decide

/-- C3, amended: on the two-record scenario the flagged subset is exactly
both records, in order — the first because 9 ≤ 10, and the second because
its wait-list current count 3 is positive. -/
theorem scenario_flagged_both :
    flaggedList demoRecords = [demoIntro, demoData]
    ∧ (parsePair demoIntro.enrolled).1 ≤ 10
    ∧ 10 < (parsePair demoData.enrolled).1
    ∧ 0 < (parsePair demoData.wait_list).1 := by
  decide

/-- C4: for a non-empty record sequence, each printed column width is an
upper bound on that field's lengths and equals either the header label
length or some record's field length (the maximum of the two), and every
flagged record's sub-table row is printed with the widths computed over
the full record set. -/
theorem table_column_widths (courses : List CourseInfo) (h : courses ≠ []) :
    widthTableSpec courses := by
  refine ⟨fun c hc => ⟨maxFieldLen_le _ _ c hc |>.trans (Nat.le_max_right _ _),
      maxFieldLen_le _ _ c hc |>.trans (Nat.le_max_right _ _),
      maxFieldLen_le _ _ c hc |>.trans (Nat.le_max_right _ _),
      maxFieldLen_le _ _ c hc |>.trans (Nat.le_max_right _ _)⟩,
    width_attained "Title" (fun c => c.title) courses,
    width_attained "Class" (fun c => c.class_code) courses,
    width_attained "Enrolled" (fun c => c.enrolled) courses,
    width_attained "Wait List" (fun c => c.wait_list) courses,
    fun c hc => ?_⟩
  have hne : ¬(flaggedList courses = []) := by
    intro he
    rw [he] at hc
    exact List.not_mem_nil c hc
  rw [printCoursesLines, if_neg h]
  refine List.mem_cons_of_mem _ (List.mem_cons_of_mem _ (List.mem_append_right _ ?_))
  rw [flaggedSection, if_neg hne]
  refine List.mem_cons_of_mem _ (List.mem_cons_of_mem _
    (List.mem_cons_of_mem _ (List.mem_cons_of_mem _ ?_)))
  exact List.mem_map_of_mem _ hc

/-- C4, witness: the width and sub-table property holds of the concrete
two-record scenario. -/
theorem table_column_widths_witness : widthTableSpec demoRecords :=
  table_column_widths demoRecords (by decide)

/-- C5: exporting any record list writes one header row followed by one
row per record in encounter order; when no field contains a delimiter or
quote character, reading the file back recovers every field unchanged,
and the export reports the count of exported records. -/
theorem csv_round_trip (courses : List CourseInfo)
    (h : ∀ c ∈ courses,
      cleanCsvField c.title ∧ cleanCsvField c.class_code
        ∧ cleanCsvField c.enrolled ∧ cleanCsvField c.wait_list) :
    csvRoundTripSpec courses := by
  refine ⟨by simp [saveCsvLines], ?_, fun path => rfl⟩
  rw [saveCsvLines, readCsvLines, List.map_cons,
    readCsvLine_csvRow csvHeaderFields (by decide) (by decide), List.map_map]
  have hrows : ∀ c ∈ courses,
      (readCsvLine ∘ fun c => csvRow (courseCsvFields c)) c = courseCsvFields c := by
    intro c hc
    rcases h c hc with ⟨h1, h2, h3, h4⟩
    refine readCsvLine_csvRow (courseCsvFields c) (by simp [courseCsvFields]) ?_
    intro f hf
    simp only [courseCsvFields, List.mem_cons, List.mem_singleton] at hf
    rcases hf with rfl | rfl | rfl | rfl | hfalse
    · exact h1
    · exact h2
    · exact h3
    · exact h4
    · exact absurd hfalse (List.not_mem_nil f)
  rw [List.map_congr_left hrows]

/-- C5, witness: the round-trip property holds of the concrete two-record
scenario, whose fields contain no delimiter or quote characters. -/
theorem csv_round_trip_witness : csvRoundTripSpec demoRecords :=
  csv_round_trip demoRecords (by decide)

/-- C6: on the empty record sequence the reporter prints exactly the fixed
no-courses notice and nothing else — no header, no rows, no flagged
section — and CSV export of zero records yields the header row only and
reports a count of zero. -/
theorem empty_sequence_report :
    printCoursesLines [] = [noCoursesMsg]
    ∧ noCoursesMsg = "No courses were found.  Verify the term code and try again."
    ∧ saveCsvLines ([] : List CourseInfo) = [csvRow csvHeaderFields]
    ∧ csvRow csvHeaderFields = "Title,Class,Enrolled,Wait List"
    ∧ saveCsvMessage [] "courses.csv" = "Saved 0 courses to courses.csv" := by
  refine ⟨rfl, rfl, rfl, by decide, by decide⟩

/-- C7: the extractor's output is exactly the per-container partial map —
a container any of whose four sub-field reads fails is omitted entirely
(never a placeholder), the remaining containers are still processed, and
every output record comes from a container whose reads all succeeded. -/
theorem extractor_skips_failing_container :
    (∀ boxes : List ResultBox,
        collectFromBoxes boxes = boxes.filterMap extractBox)
    ∧ (∀ (pre post : List ResultBox) (b : ResultBox), extractBox b = none →
        collectFromBoxes (pre ++ b :: post) = collectFromBoxes (pre ++ post))
    ∧ (∀ (boxes : List ResultBox) (c : CourseInfo),
        c ∈ collectFromBoxes boxes → ∃ b ∈ boxes, extractBox b = some c) := by
  refine ⟨collectFromBoxes_eq_filterMap, fun pre post b hb => ?_, fun boxes c hc => ?_⟩
  · rw [collectFromBoxes_eq_filterMap, collectFromBoxes_eq_filterMap,
      List.filterMap_append, List.filterMap_append, List.filterMap_cons, hb]
  · rw [collectFromBoxes_eq_filterMap] at hc
    exact List.mem_filterMap.mp hc

/-- C8: whenever session creation succeeds, collect_courses releases the
browser session on every exit path — its teardown call is in the trace of
every run, normal or raising, and is the last session action. -/
theorem session_released_on_every_path (env : SessionEnv)
    (h : env.driverOk = true) : sessionReleaseSpec env := by
  have ht : collectCoursesTrace env
      = (runSteps (sessionSteps env)).1 ++ [SessionEvent.quit] := by
    rw [collectCoursesTrace, if_pos h]
  constructor
  · rw [ht]
    exact List.mem_append_right _ (List.mem_singleton.mpr rfl)
  · rw [ht]
    exact List.getLast?_concat _

/-- C8, witness: the release property holds of a concrete run in which the
wait for result containers times out after a successful session start. -/
theorem session_released_witness : sessionReleaseSpec timeoutEnv :=
  session_released_on_every_path timeoutEnv rfl

/-- C9: the flagged subset is the order-preserving filter of the input —
a sublist of the input in encounter order holding exactly the records
that satisfy the flag condition, each record unchanged. -/
theorem flagged_subset_ordered_filter :
    (∀ courses : List CourseInfo, flaggedList courses = courses.filter isFlagged)
    ∧ (∀ courses : List CourseInfo, (flaggedList courses).Sublist courses)
    ∧ (∀ (courses : List CourseInfo) (c : CourseInfo),
        c ∈ flaggedList courses ↔ c ∈ courses ∧ isFlagged c = true) := by
  refine ⟨flaggedList_eq_filter, fun courses => ?_, fun courses c => ?_⟩
  · rw [flaggedList_eq_filter]
    exact List.filter_sublist courses
  · rw [flaggedList_eq_filter]
    exact List.mem_filter

/-- C10: the pair parser is total — it yields an integer pair on every
string — and in particular a string with more than one separator, the
empty string, or any string with no separator yields (0, 0), while a
negative current value such as "-3 / 25" parses to (-3, 25). -/
theorem parse_pair_total :
    (∀ s : String, ∃ p : Int × Int, parsePair s = p)
    ∧ parsePair "1/2/3" = (0, 0)
    ∧ parsePair "" = (0, 0)
    ∧ (∀ s : String, '/' ∉ s.toList → parsePair s = (0, 0))
    ∧ parsePair "-3 / 25" = (-3, 25) := by
  refine ⟨fun s => ⟨parsePair s, rfl⟩, by decide, by decide, fun s hs => ?_, by decide⟩
  unfold parsePair
  rw [splitChar_single '/' s.toList hs]

end CourseEnrollment
